import Mathlib

/-!
Shallow embedding of the ACNH recipe-checklist browser app (`src/app.js`).

The app keeps module-level state (the loaded catalog, the current category,
the current search text, the set of owned recipe ids, and the single
`localStorage` slot), filters the catalog, renders cards, and persists the
ownership set on every checkbox toggle.  Pure functions of the source are
translated to Lean functions; the module state becomes the structure `St`,
and the browser platform primitives used by the source (`String.prototype`
methods, `JSON.parse` / `JSON.stringify` on id arrays, `localStorage`,
`fetch`) are modelled explicitly below, each with a comment saying what it
models.
-/

/-- A recipe record as described by the `recipes.json` data contract
(README "데이터 형식").  `app.js` reads `id`, both names, both categories,
`image_url`, `source_url`, and the optional materials/source texts; names
and categories are required by the code (it calls methods on them
unconditionally), the remaining string fields are optional. -/
structure Recipe where
  id : Nat
  name_en : String
  name_ko : String
  category_en : String
  category_ko : String
  image_url : Option String
  source_url : Option String
  materials_en : Option String
  materials_ko : Option String
  source_en : Option String
  source_ko : Option String
  buy_price : Option Int
  sell_price : Option Int
  owned : Option Bool
  deriving DecidableEq, Repr

/-- The fixed `localStorage` key of `app.js` line 1. -/
def STORAGE_KEY : String := "acnh_owned_recipe_ids"

/-- Models the JS expression `a || b` where `a` is a possibly-absent string:
`null`, `undefined` and `""` are falsy, any other string is returned. -/
def jsOr (a : Option String) (b : String) : String :=
  match a with
  | some s => if s = "" then b else s
  | none => b

/-- Models the JS expression `a || b` for two present strings (only `""` is
falsy). -/
def jsOrS (a b : String) : String :=
  if a = "" then b else a

/-- Models JS `String.prototype.toLowerCase` (character-wise lowering). -/
def strToLower (s : String) : String :=
  String.mk (s.toList.map Char.toLower)

/-- Models JS `String.prototype.trim` (drop whitespace at both ends). -/
def strTrim (s : String) : String :=
  String.mk (((s.toList.dropWhile Char.isWhitespace).reverse.dropWhile
    Char.isWhitespace).reverse)

/-- Haystack-contains-needle on character lists, used to model JS
`String.prototype.includes`. -/
def listIncludes (needle : List Char) : List Char → Bool
  | [] => needle.isEmpty
  | c :: t => needle.isPrefixOf (c :: t) || listIncludes needle t

/-- Models JS `s.includes(pat)`. -/
def strIncludes (s pat : String) : Bool :=
  listIncludes pat.toList s.toList

/-- Models JS `Set.prototype.has` on the insertion-ordered element list. -/
def setHas (s : List Nat) (x : Nat) : Bool :=
  s.elem x

/-- Models JS `Set.prototype.add`: append at the end unless already present. -/
def setAdd (s : List Nat) (x : Nat) : List Nat :=
  if x ∈ s then s else s ++ [x]

/-- Models JS `Set.prototype.delete`: remove the element, keep the order of
the rest. -/
def setDelete (s : List Nat) (x : Nat) : List Nat :=
  s.filter (fun y => decide (y ≠ x))

/-- Models JS `new Set(iterable)`: insert the elements in order. -/
def setFromList (l : List Nat) : List Nat :=
  l.foldl setAdd []

/-- Decimal digit character for `n % 10`-style values. -/
def digitChar : Nat → Char
  | 0 => '0'
  | 1 => '1'
  | 2 => '2'
  | 3 => '3'
  | 4 => '4'
  | 5 => '5'
  | 6 => '6'
  | 7 => '7'
  | 8 => '8'
  | _ => '9'

/-- Numeric value of a decimal digit character. -/
def charVal (c : Char) : Nat :=
  c.toNat - 48

/-- Fuelled decimal printer for naturals (structural recursion on the fuel,
so that it evaluates by `rfl`/`decide`).  With fuel above `n` it prints the
usual most-significant-first decimal digits of `n`. -/
def natDigitsFuel : Nat → Nat → List Char
  | 0, _ => []
  | fuel + 1, n =>
    if n < 10 then [digitChar n]
    else natDigitsFuel fuel (n / 10) ++ [digitChar (n % 10)]

/-- Decimal digits of a natural number, most significant first. -/
def natDigits (n : Nat) : List Char :=
  natDigitsFuel (n + 1) n

/-- Read a decimal digit list back into a natural number. -/
def parseDigits (ds : List Char) : Nat :=
  ds.foldl (fun a c => a * 10 + charVal c) 0

/-- Character content of `JSON.stringify` applied to an id array, without
the surrounding brackets: digits of each id, separated by commas. -/
def serializeItems : List Nat → List Char
  | [] => []
  | [n] => natDigits n
  | n :: m :: rest => natDigits n ++ ',' :: serializeItems (m :: rest)

/-- Models `JSON.stringify([...ownedIds])`: the compact JSON text of the id
array, e.g. `[1,2]`. -/
def serializeIds (l : List Nat) : String :=
  String.mk ('[' :: (serializeItems l ++ [']']))

/-- Models `app.js` `saveOwned` (lines 14-16): the string written to the
single `localStorage` slot. -/
def saveOwned (ownedIds : List Nat) : String :=
  serializeIds ownedIds

/-- Fuelled parser for the bracket-free item list: one or more
comma-separated decimal numerals.  Rejects anything else. -/
def parseItemsFuel : Nat → List Char → Option (List Nat)
  | 0, _ => none
  | fuel + 1, cs =>
    let ds := cs.takeWhile Char.isDigit
    if ds.isEmpty then none
    else
      match cs.dropWhile Char.isDigit with
      | [] => some [parseDigits ds]
      | ',' :: more => (parseItemsFuel fuel more).map (fun l => parseDigits ds :: l)
      | _ => none

/-- Item-list parser with enough fuel for its input. -/
def parseItems (cs : List Char) : Option (List Nat) :=
  parseItemsFuel (cs.length + 1) cs

/-- Models `JSON.parse` restricted to the grammar `saveOwned` writes:
a JSON array of natural-number ids with no whitespace.  Returns `none`
exactly where `JSON.parse` would throw a `SyntaxError` on such inputs
(and conservatively on other JSON documents, which the app never writes). -/
def parseIds (s : String) : Option (List Nat) :=
  match s.toList with
  | '[' :: rest =>
    match rest.getLast? with
    | some ']' =>
      let body := rest.dropLast
      if body.isEmpty then some [] else parseItems body
    | _ => none
  | _ => none

/-- Models `app.js` line 6,
`new Set(JSON.parse(localStorage.getItem(STORAGE_KEY) || "[]"))`:
the stored slot (absent = `none`) is defaulted to `"[]"` by `||`, parsed,
and poured into a `Set`.  A parse failure is a thrown `SyntaxError`; the
statement runs at module top level with no surrounding `try`, so the
exception is modelled as the `Except.error` branch. -/
def ownedIdsInit (stored : Option String) : Except String (List Nat) :=
  match parseIds (jsOr stored "[]") with
  | some ids => Except.ok (setFromList ids)
  | none => Except.error "SyntaxError: JSON.parse: unexpected input"

/-- Translation of `getFilteredRecipes` (`app.js` lines 18-29). -/
def getFilteredRecipes (allRecipes : List Recipe)
    (currentCategory searchText : String) : List Recipe :=
  allRecipes.filter fun recipe =>
    let categoryMatch :=
      currentCategory == "all" || recipe.category_en == currentCategory
    let keyword := strToLower (strTrim searchText)
    let textMatch :=
      keyword == "" || strIncludes (strToLower recipe.name_ko) keyword ||
        strIncludes (strToLower recipe.name_en) keyword
    categoryMatch && textMatch

/-- The owned-within-visible count of `renderStats` (`app.js` lines 32-34). -/
def ownedCountOf (visibleRecipes : List Recipe) (ownedIds : List Nat) : Nat :=
  (visibleRecipes.filter (fun recipe => setHas ownedIds recipe.id)).length

/-- Translation of `renderStats` (`app.js` lines 31-37): the text written to
the stats element. -/
def renderStats (visibleRecipes : List Recipe) (ownedIds : List Nat) : String :=
  "표시 " ++ toString visibleRecipes.length ++ "개 | 보유 " ++
    toString (ownedCountOf visibleRecipes ownedIds) ++ "개"

/-- The data put into one card node by the loop body of `renderRecipes`
(`app.js` lines 44-62). -/
structure CardView where
  imgSrc : String
  imgAlt : String
  nameKo : String
  nameEn : String
  category : String
  materials : String
  source : String
  checked : Bool
  deriving DecidableEq, Repr

/-- Translation of the card-populating statements of `renderRecipes`
(`app.js` lines 55-62). -/
def renderCard (ownedIds : List Nat) (recipe : Recipe) : CardView :=
  { imgSrc := jsOr recipe.image_url ""
    imgAlt := recipe.name_ko ++ " 이미지"
    nameKo := jsOrS recipe.name_ko recipe.name_en
    nameEn := recipe.name_en
    category := recipe.category_ko
    materials := jsOr recipe.materials_ko (jsOr recipe.materials_en "-")
    source := jsOr recipe.source_ko (jsOr recipe.source_en "-")
    checked := setHas ownedIds recipe.id }

/-- The module-level mutable state of `app.js` (lines 3-6) together with the
single persisted `localStorage` slot the app reads and writes. -/
structure St where
  allRecipes : List Recipe
  currentCategory : String
  searchText : String
  ownedIds : List Nat
  storage : Option String
  deriving DecidableEq

/-- The visible subset for the current filter state. -/
def visibleOf (s : St) : List Recipe :=
  getFilteredRecipes s.allRecipes s.currentCategory s.searchText

/-- Translation of the checkbox `change` listener (`app.js` lines 64-69):
`checked` is the checkbox state after the change; the set is updated and
immediately persisted via `saveOwned`. -/
def onOwnedToggle (s : St) (id : Nat) (checked : Bool) : St :=
  let owned := if checked then setAdd s.ownedIds id else setDelete s.ownedIds id
  { s with ownedIds := owned, storage := some (saveOwned owned) }

/-- Outcome of the environment interaction `fetch("./recipes.json")`
followed by `res.json()`: non-success status, unparseable body, or a
parsed recipe array. -/
inductive FetchOutcome where
  | httpError : FetchOutcome
  | badBody : FetchOutcome
  | goodBody : List Recipe → FetchOutcome
  deriving DecidableEq

/-- The spec's load-failure taxonomy (§4.1): blocked `file:` protocol, or a
failed/unparseable fetch, each carrying the surfaced message. -/
inductive LoadError where
  | blockedProtocol : String → LoadError
  | fetchFailed : String → LoadError
  deriving DecidableEq

/-- The message thrown by `loadRecipes` when the page is opened via
`file:` (`app.js` lines 83-85). -/
def fileProtocolMsg : String :=
  "index.html을 파일로 직접 열면 데이터 로딩이 차단됩니다. 터미널에서 `python3 -m http.server 5500` 실행 후 http://localhost:5500 으로 접속하세요."

/-- The message thrown on a non-ok response (`app.js` line 88). -/
def fetchErrorMsg : String :=
  "recipes.json 파일을 읽지 못했습니다."

/-- Models the `SyntaxError` with which `res.json()` rejects on an
unparseable body (`app.js` line 89). -/
def jsonErrorMsg : String :=
  "SyntaxError: unexpected token in JSON"

/-- Translation of `loadRecipes` (`app.js` lines 81-90): `protocol` is
`window.location.protocol`; the protocol check runs before any fetch, so a
`file:` page fails identically for every fetch outcome. -/
def loadRecipes (protocol : String) (outcome : FetchOutcome) :
    Except LoadError (List Recipe) :=
  if protocol = "file:" then
    Except.error (LoadError.blockedProtocol fileProtocolMsg)
  else
    match outcome with
    | FetchOutcome.httpError => Except.error (LoadError.fetchFailed fetchErrorMsg)
    | FetchOutcome.badBody => Except.error (LoadError.fetchFailed jsonErrorMsg)
    | FetchOutcome.goodBody recipes => Except.ok recipes

/-- The spec's visibility predicate exactly as worded (§4.2 and claim C1):
no trimming of the search text. -/
def specVisible (category searchText : String) (recipe : Recipe) : Bool :=
  (category == "all" || recipe.category_en == category) &&
    (searchText == "" ||
      strIncludes (strToLower recipe.name_ko) (strToLower searchText) ||
      strIncludes (strToLower recipe.name_en) (strToLower searchText))

/-- The spec's fallback rule (§4.2), as worded: the preferred field if
present (a non-empty value), else the fallback. -/
def specChoose (o : Option String) (fallback : String) : String :=
  match o with
  | some s => if s = "" then fallback else s
  | none => fallback

/-- Sample recipe matching the spec §8 scenario catalog. -/
def fish : Recipe :=
  { id := 1, name_en := "Fish", name_ko := "생선", category_en := "Food",
    category_ko := "음식", image_url := some "fish.png", source_url := none,
    materials_en := some "fish x1", materials_ko := none, source_en := none,
    source_ko := none, buy_price := none, sell_price := none, owned := none }

/-- Sample recipe matching the spec §8 scenario catalog. -/
def cake : Recipe :=
  { id := 2, name_en := "Cake", name_ko := "케이크", category_en := "Dessert",
    category_ko := "디저트", image_url := none, source_url := none,
    materials_en := some "flour x3", materials_ko := none, source_en := none,
    source_ko := none, buy_price := none, sell_price := none, owned := none }

/-- A concrete application state used for witnesses: the spec §8 scenario
catalog with recipe `1` owned and the slot synced. -/
def st0 : St :=
  { allRecipes := [fish, cake], currentCategory := "all", searchText := "",
    ownedIds := [1], storage := some (saveOwned [1]) }

/-! ### Decimal printer and parser facts -/

lemma charVal_digitChar (n : Nat) (h : n < 10) : charVal (digitChar n) = n := by
  interval_cases n <;> rfl

lemma digitChar_isDigit (n : Nat) : (digitChar n).isDigit = true := by
  unfold digitChar
  split <;> rfl

lemma parseDigits_append (ds : List Char) (c : Char) :
    parseDigits (ds ++ [c]) = parseDigits ds * 10 + charVal c := by
  simp [parseDigits, List.foldl_append]

lemma parseDigits_natDigitsFuel :
    ∀ (fuel n : Nat), n < fuel → parseDigits (natDigitsFuel fuel n) = n := by
  intro fuel
  induction fuel with
  | zero => intro n h; omega
  | succ fuel ih =>
    intro n h
    simp only [natDigitsFuel]
    split
    next h10 =>
      simp [parseDigits, charVal_digitChar n h10]
    next h10 =>
      have hdiv : n / 10 < fuel := by
        have := Nat.div_lt_self (show 0 < n by omega) (show 1 < 10 by omega)
        omega
      rw [parseDigits_append, ih (n / 10) hdiv,
        charVal_digitChar (n % 10) (Nat.mod_lt n (by omega))]
      omega

lemma parseDigits_natDigits (n : Nat) : parseDigits (natDigits n) = n :=
  parseDigits_natDigitsFuel (n + 1) n (Nat.lt_succ_self n)

lemma natDigitsFuel_digits :
    ∀ (fuel n : Nat), ∀ c ∈ natDigitsFuel fuel n, c.isDigit = true := by
  intro fuel
  induction fuel with
  | zero => intro n c hc; simp [natDigitsFuel] at hc
  | succ fuel ih =>
    intro n c hc
    simp only [natDigitsFuel] at hc
    split at hc
    · rw [List.mem_singleton] at hc
      subst hc
      exact digitChar_isDigit n
    · rw [List.mem_append] at hc
      rcases hc with hc | hc
      · exact ih _ c hc
      · rw [List.mem_singleton] at hc
        subst hc
        exact digitChar_isDigit _

lemma natDigits_digits (n : Nat) : ∀ c ∈ natDigits n, c.isDigit = true :=
  natDigitsFuel_digits (n + 1) n

lemma natDigits_ne_nil (n : Nat) : natDigits n ≠ [] := by
  unfold natDigits
  simp only [natDigitsFuel]
  split <;> simp

/-! ### Round-trip of the persisted id array -/

lemma serializeItems_ne_nil (n : Nat) (rest : List Nat) :
    serializeItems (n :: rest) ≠ [] := by
  cases rest with
  | nil => exact natDigits_ne_nil n
  | cons m rest => simp [serializeItems, natDigits_ne_nil n]

lemma parseItemsFuel_serializeItems :
    ∀ (l : List Nat) (fuel : Nat), l ≠ [] → (serializeItems l).length < fuel →
      parseItemsFuel fuel (serializeItems l) = some l := by
  intro l
  induction l with
  | nil => intro fuel h _; exact absurd rfl h
  | cons n rest ih =>
    intro fuel _ hlen
    cases fuel with
    | zero => omega
    | succ fuel =>
      cases rest with
      | nil =>
        simp only [serializeItems, parseItemsFuel]
        rw [List.takeWhile_eq_self_iff.mpr (natDigits_digits n),
          List.dropWhile_eq_nil_iff.mpr (natDigits_digits n)]
        rw [List.isEmpty_eq_false_iff_exists_mem.mpr]
        · simp [parseDigits_natDigits n]
        · rcases List.exists_mem_of_ne_nil _ (natDigits_ne_nil n) with ⟨c, hc⟩
          exact ⟨c, hc⟩
      | cons m rest =>
        simp only [serializeItems] at hlen ⊢
        simp only [parseItemsFuel]
        rw [List.takeWhile_append_of_pos (natDigits_digits n),
          List.dropWhile_append_of_pos (natDigits_digits n)]
        rw [List.takeWhile_cons_of_neg (by decide),
          List.dropWhile_cons_of_neg (by decide)]
        rw [List.append_nil,
          List.isEmpty_eq_false_iff_exists_mem.mpr
            (List.exists_mem_of_ne_nil _ (natDigits_ne_nil n))]
        have hrest : (serializeItems (m :: rest)).length < fuel := by
          have h1 : 1 ≤ (natDigits n).length :=
            List.length_pos.mpr (natDigits_ne_nil n)
          simp only [List.length_append, List.length_cons] at hlen
          omega
        simp [ih fuel (by simp) hrest, parseDigits_natDigits n]

lemma parseItems_serializeItems (l : List Nat) (h : l ≠ []) :
    parseItems (serializeItems l) = some l :=
  parseItemsFuel_serializeItems l _ h (Nat.lt_succ_self _)

lemma parseIds_serializeIds (l : List Nat) : parseIds (serializeIds l) = some l := by
  cases l with
  | nil => rfl
  | cons n rest =>
    show parseIds (String.mk ('[' :: (serializeItems (n :: rest) ++ [']']))) = _
    simp only [parseIds, String.toList]
    rw [List.getLast?_concat, List.dropLast_concat]
    rw [List.isEmpty_eq_false_iff_exists_mem.mpr
      (List.exists_mem_of_ne_nil _ (serializeItems_ne_nil n rest))]
    simp [parseItems_serializeItems (n :: rest) (by simp)]

lemma serializeIds_ne_empty (l : List Nat) : serializeIds l ≠ "" := by
  intro h
  have : ('[' :: (serializeItems l ++ [']'])) = ([] : List Char) :=
    congrArg String.data h
  exact List.noConfusion this

/-! ### JS `Set` facts -/

lemma mem_setAdd (s : List Nat) (x y : Nat) : y ∈ setAdd s x ↔ y ∈ s ∨ y = x := by
  unfold setAdd
  split
  next h =>
    constructor
    · exact Or.inl
    · rintro (hy | rfl)
      · exact hy
      · exact h
  next h => simp

lemma setAdd_nodup (s : List Nat) (x : Nat) (h : s.Nodup) : (setAdd s x).Nodup := by
  unfold setAdd
  split
  next => exact h
  next hx =>
    rw [List.nodup_append]
    exact ⟨h, List.nodup_singleton x, by
      intro a ha hax
      rw [List.mem_singleton] at hax
      subst hax
      exact hx ha⟩

lemma setAdd_mem_eq (s : List Nat) (x : Nat) (h : x ∈ s) : setAdd s x = s := by
  unfold setAdd
  exact if_pos h

lemma setDelete_not_mem (s : List Nat) (x : Nat) (h : x ∉ s) : setDelete s x = s := by
  unfold setDelete
  rw [List.filter_eq_self]
  intro a ha
  simp only [decide_eq_true_eq]
  rintro rfl
  exact h ha

lemma setDelete_nodup (s : List Nat) (x : Nat) (h : s.Nodup) : (setDelete s x).Nodup :=
  List.Nodup.filter _ h

lemma setDelete_setAdd (s : List Nat) (x : Nat) (h : x ∉ s) :
    setDelete (setAdd s x) x = s := by
  unfold setAdd
  rw [if_neg h]
  unfold setDelete
  rw [List.filter_append]
  have h1 : List.filter (fun y => decide (y ≠ x)) s = s := by
    rw [List.filter_eq_self]
    intro a ha
    simp only [decide_eq_true_eq]
    rintro rfl
    exact h ha
  have h2 : List.filter (fun y => decide (y ≠ x)) [x] = [] := by simp
  rw [h1, h2, List.append_nil]

lemma foldl_setAdd_nodup :
    ∀ (xs acc : List Nat), acc.Nodup → (xs.foldl setAdd acc).Nodup := by
  intro xs
  induction xs with
  | nil => intro acc h; exact h
  | cons x xs ih =>
    intro acc h
    exact ih (setAdd acc x) (setAdd_nodup acc x h)

lemma mem_foldl_setAdd :
    ∀ (xs acc : List Nat) (y : Nat), y ∈ xs.foldl setAdd acc ↔ y ∈ acc ∨ y ∈ xs := by
  intro xs
  induction xs with
  | nil => intro acc y; simp
  | cons x xs ih =>
    intro acc y
    rw [List.foldl_cons, ih (setAdd acc x) y, mem_setAdd]
    simp only [List.mem_cons]
    tauto

lemma setFromList_nodup (xs : List Nat) : (setFromList xs).Nodup :=
  foldl_setAdd_nodup xs [] List.nodup_nil

lemma mem_setFromList (xs : List Nat) (y : Nat) : y ∈ setFromList xs ↔ y ∈ xs := by
  unfold setFromList
  rw [mem_foldl_setAdd]
  simp

lemma foldl_setAdd_of_disjoint :
    ∀ (l acc : List Nat), l.Nodup → (∀ x ∈ l, x ∉ acc) →
      l.foldl setAdd acc = acc ++ l := by
  intro l
  induction l with
  | nil => intro acc _ _; simp
  | cons x l ih =>
    intro acc hnd hdisj
    rw [List.foldl_cons]
    have hx : x ∉ acc := hdisj x (List.mem_cons_self x l)
    have hadd : setAdd acc x = acc ++ [x] := by unfold setAdd; exact if_neg hx
    rw [hadd, ih (acc ++ [x]) (List.Nodup.of_cons hnd) (by
      intro y hy
      rw [List.mem_append, List.mem_singleton]
      rintro (hya | rfl)
      · exact hdisj y (List.mem_cons_of_mem x hy) hya
      · exact (List.nodup_cons.mp hnd).1 hy)]
    simp

lemma setFromList_of_nodup (l : List Nat) (h : l.Nodup) : setFromList l = l := by
  unfold setFromList
  rw [foldl_setAdd_of_disjoint l [] h (fun x _ hx => List.not_mem_nil x hx)]
  simp

/-! ### Miscellaneous string and membership facts -/

lemma strToLower_eq_empty (s : String) : strToLower s = "" ↔ s = "" := by
  constructor
  · intro h
    have h2 : s.toList.map Char.toLower = [] := congrArg String.data h
    have h3 : s.toList = [] := List.map_eq_nil_iff.mp h2
    cases s with
    | mk data =>
      have h4 : data = [] := h3
      subst h4
      rfl
  · rintro rfl
    rfl

lemma setHas_eq_mem (s : List Nat) (x : Nat) : setHas s x = decide (x ∈ s) := by
  simp [setHas]

/-! ### The claims -/

/-- Claim C1, as stated, is false on the code: `getFilteredRecipes` trims
the search text before matching, so a recipe can be visible under a
whitespace-only search text even though the spec predicate (`specVisible`,
which does not trim) rejects it.  Concretely, with search text `" "` the
recipe `cake` is visible but `specVisible` is false. -/
theorem claim_C1_counterexample :
    ¬ (cake ∈ getFilteredRecipes [fish, cake] "all" " " ↔
        cake ∈ [fish, cake] ∧ specVisible "all" " " cake = true) := by
  decide

/-- Claim C1 (amended): for every catalog, category and search text, a
recipe is in the visible subset iff it is in the catalog, the category is
`"all"` or equals its `category_en` exactly, and the **trimmed** search
text is empty or its lowercasing is a substring of the lowercased
`name_ko` or of the lowercased `name_en`. -/
theorem claim_C1_amended_filter (allRecipes : List Recipe)
    (category searchText : String) (r : Recipe) :
    r ∈ getFilteredRecipes allRecipes category searchText ↔
      r ∈ allRecipes ∧
        (category = "all" ∨ r.category_en = category) ∧
        (strTrim searchText = "" ∨
          strIncludes (strToLower r.name_ko) (strToLower (strTrim searchText)) = true ∨
          strIncludes (strToLower r.name_en) (strToLower (strTrim searchText)) = true) := by
  unfold getFilteredRecipes
  rw [List.mem_filter]
  simp only [Bool.and_eq_true, Bool.or_eq_true, beq_iff_eq, strToLower_eq_empty]
  tauto

/-- Claim C2: for every catalog (with the spec's catalog-uniqueness
invariant) and every filter state, the visible subset is a sublist of the
catalog — every visible recipe occurs in the catalog, in the same relative
order, and no recipe appears more than once. -/
theorem claim_C2_order_preserving (allRecipes : List Recipe)
    (category searchText : String) (hnd : allRecipes.Nodup) :
    List.Sublist (getFilteredRecipes allRecipes category searchText) allRecipes ∧
      (getFilteredRecipes allRecipes category searchText).Nodup :=
  ⟨List.filter_sublist allRecipes,
    List.Nodup.sublist (List.filter_sublist allRecipes) hnd⟩

/-- Witness for C2 at the spec §8 scenario catalog. -/
theorem claim_C2_witness :
    ([fish, cake] : List Recipe).Nodup ∧
      (List.Sublist (getFilteredRecipes [fish, cake] "Dessert" "") [fish, cake] ∧
        (getFilteredRecipes [fish, cake] "Dessert" "").Nodup) :=
  ⟨by decide, claim_C2_order_preserving [fish, cake] "Dessert" "" (by decide)⟩

/-- Claim C3, as stated, is false on the code: `JSON.parse` runs at module
top level with no `try`, so corrupt stored content throws instead of
yielding an empty ownership set.  At the stored string `"corrupt"` the
startup computation is an error, not `Except.ok []`. -/
theorem claim_C3_counterexample :
    (ownedIdsInit (some "corrupt")).isOk = false ∧
      ownedIdsInit (some "corrupt") =
        Except.error "SyntaxError: JSON.parse: unexpected input" :=
  ⟨rfl, rfl⟩

/-- Claim C3 (amended): an absent persisted entry yields the empty
ownership set, but stored content that cannot be parsed makes startup fail
with the propagated parse error instead of recovering. -/
theorem claim_C3_amended (stored : Option String) (s : String)
    (h1 : stored = some s) (h2 : s ≠ "") (h3 : parseIds s = none) :
    ownedIdsInit none = Except.ok [] ∧
      ownedIdsInit stored =
        Except.error "SyntaxError: JSON.parse: unexpected input" := by
  subst h1
  refine ⟨rfl, ?_⟩
  unfold ownedIdsInit
  have hj : jsOr (some s) "[]" = s := by simp [jsOr, h2]
  rw [hj, h3]

/-- Witness for the amended C3 at the corrupt stored string `"corrupt"`. -/
theorem claim_C3_witness :
    (some "corrupt" = some ("corrupt" : String)) ∧ ("corrupt" : String) ≠ "" ∧
      parseIds "corrupt" = none ∧
      (ownedIdsInit none = Except.ok [] ∧
        ownedIdsInit (some "corrupt") =
          Except.error "SyntaxError: JSON.parse: unexpected input") :=
  ⟨rfl, by decide, rfl,
    claim_C3_amended (some "corrupt") "corrupt" rfl (by decide) rfl⟩

/-- Claim C4: `renderStats` reports the number of visible recipes and the
number of visible recipes whose id belongs to the ownership set, in
exactly the format `표시 N개 | 보유 M개`. -/
theorem claim_C4_renderStats (visibleRecipes : List Recipe) (ownedIds : List Nat) :
    ownedCountOf visibleRecipes ownedIds =
      visibleRecipes.countP (fun r => decide (r.id ∈ ownedIds)) ∧
    renderStats visibleRecipes ownedIds =
      "표시 " ++ toString visibleRecipes.length ++ "개 | 보유 " ++
        toString (visibleRecipes.countP (fun r => decide (r.id ∈ ownedIds))) ++ "개" := by
  have hfun : (fun recipe : Recipe => setHas ownedIds recipe.id) =
      (fun r : Recipe => decide (r.id ∈ ownedIds)) := by
    funext r
    simp [setHas]
  have hcount : ownedCountOf visibleRecipes ownedIds =
      visibleRecipes.countP (fun r => decide (r.id ∈ ownedIds)) := by
    unfold ownedCountOf
    rw [List.countP_eq_length_filter, hfun]
  exact ⟨hcount, by unfold renderStats; rw [hcount]⟩

/-- Claim C5: an ownership toggle leaves the catalog, the filter state and
hence the visible subset unchanged — for any id, visible or not, and either
direction of the toggle. -/
theorem claim_C5_toggle_frame (s : St) (id : Nat) (checked : Bool) :
    visibleOf (onOwnedToggle s id checked) = visibleOf s ∧
      (onOwnedToggle s id checked).allRecipes = s.allRecipes ∧
      (onOwnedToggle s id checked).currentCategory = s.currentCategory ∧
      (onOwnedToggle s id checked).searchText = s.searchText :=
  ⟨rfl, rfl, rfl, rfl⟩

/-- Claim C6: for any insertion order, persisting the ownership set and
re-parsing it the way startup does yields exactly the same set; membership
of the set is that of the inserted ids (so insertion order is immaterial);
and toggling an unowned id on and then off restores both the set and the
persisted content. -/
theorem claim_C6_roundtrip (xs : List Nat) (id : Nat) (h : id ∉ xs) :
    ownedIdsInit (some (saveOwned (setFromList xs))) = Except.ok (setFromList xs) ∧
      (∀ i, i ∈ setFromList xs ↔ i ∈ xs) ∧
      setDelete (setAdd (setFromList xs) id) id = setFromList xs ∧
      saveOwned (setDelete (setAdd (setFromList xs) id) id) =
        saveOwned (setFromList xs) := by
  have hnd := setFromList_nodup xs
  have hload : ownedIdsInit (some (saveOwned (setFromList xs))) =
      Except.ok (setFromList xs) := by
    unfold ownedIdsInit saveOwned
    have hj : jsOr (some (serializeIds (setFromList xs))) "[]" =
        serializeIds (setFromList xs) := by
      simp [jsOr, serializeIds_ne_empty]
    rw [hj, parseIds_serializeIds]
    simp [setFromList_of_nodup _ hnd]
  have hmem : id ∉ setFromList xs := fun hx => h ((mem_setFromList xs id).mp hx)
  have hdel : setDelete (setAdd (setFromList xs) id) id = setFromList xs :=
    setDelete_setAdd _ id hmem
  exact ⟨hload, fun i => mem_setFromList xs i, hdel, congrArg saveOwned hdel⟩

/-- Witness for C6: inserting `3` then `1`, and toggling `2` on and off. -/
theorem claim_C6_witness :
    (2 ∉ ([3, 1] : List Nat)) ∧
      (ownedIdsInit (some (saveOwned (setFromList [3, 1]))) =
          Except.ok (setFromList [3, 1]) ∧
        (∀ i, i ∈ setFromList [3, 1] ↔ i ∈ [3, 1]) ∧
        setDelete (setAdd (setFromList [3, 1]) 2) 2 = setFromList [3, 1] ∧
        saveOwned (setDelete (setAdd (setFromList [3, 1]) 2) 2) =
          saveOwned (setFromList [3, 1])) :=
  ⟨by decide, claim_C6_roundtrip [3, 1] 2 (by decide)⟩

/-- Claim C7: on a `file:` page, `loadRecipes` fails with the
blocked-protocol error before any fetch outcome matters, and its message
instructs serving via a local HTTP server; a non-success response or an
unparseable body each fail with a fetch-failed error; a good body is
returned unmodified. -/
theorem claim_C7_loadRecipes (outcome : FetchOutcome) (protocol : String)
    (hp : protocol ≠ "file:") (recipes : List Recipe) :
    (loadRecipes "file:" outcome =
        Except.error (LoadError.blockedProtocol fileProtocolMsg) ∧
      strIncludes fileProtocolMsg "http.server" = true ∧
      strIncludes fileProtocolMsg "http://localhost:5500" = true) ∧
    loadRecipes protocol FetchOutcome.httpError =
      Except.error (LoadError.fetchFailed fetchErrorMsg) ∧
    loadRecipes protocol FetchOutcome.badBody =
      Except.error (LoadError.fetchFailed jsonErrorMsg) ∧
    loadRecipes protocol (FetchOutcome.goodBody recipes) = Except.ok recipes := by
  refine ⟨⟨rfl, by decide, by decide⟩, ?_, ?_, ?_⟩ <;>
    · unfold loadRecipes
      rw [if_neg hp]

/-- Witness for C7 at protocol `"http:"`. -/
theorem claim_C7_witness :
    ("http:" : String) ≠ "file:" ∧
      ((loadRecipes "file:" FetchOutcome.httpError =
          Except.error (LoadError.blockedProtocol fileProtocolMsg) ∧
        strIncludes fileProtocolMsg "http.server" = true ∧
        strIncludes fileProtocolMsg "http://localhost:5500" = true) ∧
      loadRecipes "http:" FetchOutcome.httpError =
        Except.error (LoadError.fetchFailed fetchErrorMsg) ∧
      loadRecipes "http:" FetchOutcome.badBody =
        Except.error (LoadError.fetchFailed jsonErrorMsg) ∧
      loadRecipes "http:" (FetchOutcome.goodBody []) = Except.ok []) :=
  ⟨by decide, claim_C7_loadRecipes FetchOutcome.httpError "http:" (by decide) []⟩

/-- Claim C8: rendering a recipe card is the pure projection of the spec's
fallback rules — `name_ko` else `name_en` for the primary name,
`category_ko` for the label, `materials_ko` else `materials_en` else `-`,
`source_ko` else `source_en` else `-`, `image_url` else the empty string,
and the checkbox state is exactly membership in the ownership set; every
combination of absent optional fields is handled (the function is total). -/
theorem claim_C8_renderCard (ownedIds : List Nat) (recipe : Recipe) :
    (renderCard ownedIds recipe).imgSrc = specChoose recipe.image_url "" ∧
      (renderCard ownedIds recipe).nameKo =
        (if recipe.name_ko = "" then recipe.name_en else recipe.name_ko) ∧
      (renderCard ownedIds recipe).nameEn = recipe.name_en ∧
      (renderCard ownedIds recipe).category = recipe.category_ko ∧
      (renderCard ownedIds recipe).materials =
        specChoose recipe.materials_ko (specChoose recipe.materials_en "-") ∧
      (renderCard ownedIds recipe).source =
        specChoose recipe.source_ko (specChoose recipe.source_en "-") ∧
      ((renderCard ownedIds recipe).checked = true ↔ recipe.id ∈ ownedIds) := by
  refine ⟨?_, rfl, rfl, rfl, ?_, ?_, ?_⟩
  · show jsOr recipe.image_url "" = specChoose recipe.image_url ""
    cases recipe.image_url <;> rfl
  · show jsOr recipe.materials_ko (jsOr recipe.materials_en "-") =
      specChoose recipe.materials_ko (specChoose recipe.materials_en "-")
    cases recipe.materials_ko <;> cases recipe.materials_en <;> rfl
  · show jsOr recipe.source_ko (jsOr recipe.source_en "-") =
      specChoose recipe.source_ko (specChoose recipe.source_en "-")
    cases recipe.source_ko <;> cases recipe.source_en <;> rfl
  · show setHas ownedIds recipe.id = true ↔ recipe.id ∈ ownedIds
    simp [setHas]

/-- Claim C9: immediately after any toggle the persisted slot holds the
serialization of the in-memory set; the set (hence the serialized
sequence) stays duplicate-free; and adding an already-owned id or removing
an unowned one leaves the in-memory set unchanged. -/
theorem claim_C9_toggle_invariant (s : St) (id : Nat) (checked : Bool)
    (hnd : s.ownedIds.Nodup) :
    (onOwnedToggle s id checked).storage =
        some (saveOwned (onOwnedToggle s id checked).ownedIds) ∧
      (onOwnedToggle s id checked).ownedIds.Nodup ∧
      (id ∈ s.ownedIds → (onOwnedToggle s id true).ownedIds = s.ownedIds) ∧
      (id ∉ s.ownedIds → (onOwnedToggle s id false).ownedIds = s.ownedIds) := by
  refine ⟨rfl, ?_, ?_, ?_⟩
  · show (if checked then setAdd s.ownedIds id else setDelete s.ownedIds id).Nodup
    cases checked
    · exact setDelete_nodup _ _ hnd
    · exact setAdd_nodup _ _ hnd
  · intro hmem
    show setAdd s.ownedIds id = s.ownedIds
    exact setAdd_mem_eq _ _ hmem
  · intro hmem
    show setDelete s.ownedIds id = s.ownedIds
    exact setDelete_not_mem _ _ hmem

/-- Witness for C9 at the concrete state `st0` and id `1`. -/
theorem claim_C9_witness :
    st0.ownedIds.Nodup ∧
      ((onOwnedToggle st0 1 true).storage =
          some (saveOwned (onOwnedToggle st0 1 true).ownedIds) ∧
        (onOwnedToggle st0 1 true).ownedIds.Nodup ∧
        (1 ∈ st0.ownedIds → (onOwnedToggle st0 1 true).ownedIds = st0.ownedIds) ∧
        (1 ∉ st0.ownedIds → (onOwnedToggle st0 1 false).ownedIds = st0.ownedIds)) :=
  ⟨by decide, claim_C9_toggle_invariant st0 1 true (by decide)⟩

/-- Claim C10: the owned count within the visible subset never exceeds the
visible count, and on an empty visible subset it is zero. -/
theorem claim_C10_count_bound (visibleRecipes : List Recipe) (ownedIds : List Nat) :
    ownedCountOf visibleRecipes ownedIds ≤ visibleRecipes.length ∧
      ownedCountOf [] ownedIds = 0 := by
  constructor
  · unfold ownedCountOf
    exact List.length_filter_le _ _
  · rfl

/-! ### Spec §8 scenario checks -/

/-- Spec §8 scenario 7: category `Dessert`, empty search, empty ownership. -/
theorem scenario_dessert_filter :
    getFilteredRecipes [fish, cake] "Dessert" "" = [cake] ∧
      renderStats (getFilteredRecipes [fish, cake] "Dessert" "") [] =
        "표시 1개 | 보유 0개" := by
  decide

/-- Spec §8 scenario 8: category `all`, ownership set with both ids. -/
theorem scenario_owned_stats :
    renderStats (getFilteredRecipes [fish, cake] "all" "") [1, 2] =
      "표시 2개 | 보유 2개" := by
  decide

/-- Spec §8 scenario 9: a recipe missing `image_url` renders with an empty
image source and no failure. -/
theorem scenario_missing_image : (renderCard [] cake).imgSrc = "" := rfl
